import Mathlib

/-!
Verification of the `mixer` repository: a shallow embedding of its
frontend glue code (Redux slice, API client, route table) and of the
track-analysis / mix-transition core described by the design document.
The core (feature extraction, beat-grid building, tempo/key resolution,
transition planning, session state) has no implementation in the
repository sources, so those definitions are modelled from the spec.
-/

namespace Mixer

/-! ### Frontend: Redux test slice (src/unnamed/part_002, `testSlice`) -/

/-- State of the `test` Redux slice: `interface TestState { test: string }`. -/
structure TestState where
  test : String
deriving DecidableEq

/-- Payload of the `testAction` action: `TestPayload` with a `test` string. -/
structure TestPayload where
  test : String
deriving DecidableEq

/-- A Redux Toolkit `PayloadAction<P>` carries a payload of type `P`. -/
structure PayloadAction (P : Type) where
  payload : P

/-- The slice's initial state: `const initialState: TestState = { test: "" }`. -/
def initialState : TestState := ⟨""⟩

/-- The `testAction` case reducer: `state.test = action.payload.test`.
Under Immer this replaces only the `test` field of the state. -/
def testAction (s : TestState) (a : PayloadAction TestPayload) : TestState :=
  { s with test := a.payload.test }

/-! ### Frontend: `getTest` API client (src/unnamed/part_001) -/

/-- Query type of the `getTest` API call: `type TestQuery = { test: string }`. -/
structure TestQuery where
  test : String
deriving DecidableEq

/-- An HTTP request as issued by the axios client: method and path. -/
structure HttpRequest where
  method : String
  path : String
deriving DecidableEq

/-- The `getTest` function: `axios.get('/test')`.  The `test` field of the
destructured `TestQuery` argument never appears in the request. -/
def getTest (q : TestQuery) : HttpRequest :=
  { method := "GET", path := "/test" }

/-! ### Frontend: route table (src/frontend/src/routes/index.tsx) -/

/-- A route element: either a react-router `Navigate` redirect (with its
`replace` flag and target path) or the lazily imported `Mixer` component. -/
inductive RouteElement where
  | navigate (replace : Bool) (dest : String)
  | mixerView
deriving DecidableEq

/-- One entry of the `routes` array: a path and the element it renders. -/
structure Route where
  path : String
  element : RouteElement
deriving DecidableEq

/-- The `routes` array of src/frontend/src/routes/index.tsx. -/
def routes : List Route :=
  [⟨"/", .navigate true "/mixer"⟩,
   ⟨"/app", .navigate true "/mixer"⟩,
   ⟨"/mixer", .mixerView⟩]

/-- A route ultimately resolves to the Mixer view when it renders the Mixer
component directly or redirects to a path whose route renders it. -/
def resolvesToMixer (rt : Route) : Bool :=
  match rt.element with
  | .mixerView => true
  | .navigate _ dest =>
      (routes.filter (fun r => r.path == dest)).any (fun r => r.element == .mixerView)

end Mixer

namespace Mixer

/-! ### Core data model (modelled from the spec; absent from src/) -/

/-- Modelled from the spec: the error taxonomy of §7 for the missing
analysis/transition core (`TruncatedWindow` is a non-fatal flag on the
plan, not an error value). -/
inductive MixError where
  | UnsupportedFormat
  | TooShort
  | InsufficientBeats
  | IncompatibleTempo
  | InternalInvariantViolation
deriving DecidableEq

/-- Modelled from the spec: mode of a musical key (major or minor). -/
inductive Mode where
  | major
  | minor
deriving DecidableEq, Fintype

/-- Modelled from the spec: a musical key, a pitch class 0–11 with a mode. -/
structure Key where
  pitch_class : ZMod 12
  mode : Mode
deriving DecidableEq, Fintype

/-- Modelled from the spec: configured `stretch_ratio_bounds` minimum (0.5). -/
def stretchBoundMin : ℚ := 1 / 2

/-- Modelled from the spec: configured `stretch_ratio_bounds` maximum (2.0). -/
def stretchBoundMax : ℚ := 2

/-- Modelled from the spec: whether a stretch ratio lies within the
configured bound [0.5, 2.0]. -/
def inBound (r : ℚ) : Bool :=
  decide (stretchBoundMin ≤ r ∧ r ≤ stretchBoundMax)

/-- Modelled from the spec: configured `min_beats_for_grid` (default 8). -/
def min_beats_for_grid : ℕ := 8

/-- Modelled from the spec: configured `crossfade_bars` (default 4). -/
def crossfade_bars : ℕ := 4

/-- Modelled from the spec: the key a perfect fifth above (7 semitones). -/
def fifthUpKey (k : Key) : Key := ⟨k.pitch_class + 7, k.mode⟩

/-- Modelled from the spec: the key a perfect fifth below (5 semitones up
around the chromatic circle). -/
def fifthDownKey (k : Key) : Key := ⟨k.pitch_class + 5, k.mode⟩

/-- Modelled from the spec: the relative major/minor of a key. -/
def relativeKey (k : Key) : Key :=
  match k.mode with
  | .major => ⟨k.pitch_class + 9, .minor⟩
  | .minor => ⟨k.pitch_class + 3, .major⟩

/-- Modelled from the spec: harmonic compatibility — same key, perfect
fifth up or down, or relative major/minor. -/
def isCompatible (ka k : Key) : Bool :=
  decide (k = ka ∨ k = fifthUpKey ka ∨ k = fifthDownKey ka ∨ k = relativeKey ka)

/-- The signed semitone distance around the chromatic circle represented by
a pitch-class difference, taken in the half-open range (-6, 6] (ties at the
tritone broken toward the upward shift). -/
def signedRep (d : ZMod 12) : ℤ :=
  if d.val ≤ 6 then (d.val : ℤ) else (d.val : ℤ) - 12

/-- Shifting a key by a number of semitones moves its pitch class around
the chromatic circle and keeps its mode. -/
def shiftKey (k : Key) (s : ℤ) : Key := ⟨k.pitch_class + (s : ZMod 12), k.mode⟩

/-- Of two semitone shifts, the one of smaller absolute value; on equal
absolute values the upward shift is preferred. -/
def minAbsPref (a b : ℤ) : ℤ :=
  if |b| < |a| ∨ (|b| = |a| ∧ a < b) then b else a

/-- Modelled from the spec: the resolver's key shift for track B — the
smallest absolute semitone shift taking `kb` to a harmonically compatible
key of `ka`.  When the modes agree the candidates are `ka` itself and its
perfect fifths; when they differ the only compatible candidate is the
relative major/minor of `ka`. -/
def keyShift (ka kb : Key) : ℤ :=
  if ka.mode = kb.mode then
    minAbsPref
      (minAbsPref (signedRep (ka.pitch_class - kb.pitch_class))
        (signedRep (ka.pitch_class + 7 - kb.pitch_class)))
      (signedRep (ka.pitch_class + 5 - kb.pitch_class))
  else
    signedRep ((relativeKey ka).pitch_class - kb.pitch_class)

/-- Modelled from the spec: one labeled beat of a `BeatGrid` — a time with
its bar index and position in the bar. -/
structure LabeledBeat where
  time : ℚ
  bar_index : ℕ
  beat_in_bar : ℕ
deriving DecidableEq

/-- Modelled from the spec: a `BeatGrid` as in §3 of the design. -/
structure BeatGrid where
  origin_time : ℚ
  period : ℚ
  bar_length : ℕ
  labeled_beats : List LabeledBeat
deriving DecidableEq

/-- Modelled from the spec: the tempo of a beat grid in BPM,
`60 / period` seconds-per-beat. -/
def tempoOf (g : BeatGrid) : ℚ := 60 / g.period

/-- Modelled from the spec: the resolver's output — target tempo and key
shift for track B. -/
structure Resolution where
  target_bpm : ℚ
  key_shift_semitones_b : ℤ
deriving DecidableEq

/-- Modelled from the spec: target tempo selection (§4.3).  The tempo of
the currently playing track A is the anchor whenever the implied stretch
ratio for B is within bound; otherwise the tempo minimizing the larger of
the two stretch ratios is used if it keeps both within bound; otherwise
resolution fails with `IncompatibleTempo`. -/
def chooseTargetBpm (ta tb : ℚ) : Except MixError ℚ :=
  if inBound (ta / tb) then .ok ta
  else if inBound ((max ta tb / 2) / ta) && inBound ((max ta tb / 2) / tb) then
    .ok (max ta tb / 2)
  else .error .IncompatibleTempo

/-- Modelled from the spec: the tempo/key compatibility resolver
`resolve(grid_a, key_a, grid_b, key_b) -> {target_bpm, key_shift_semitones_b}`. -/
def resolve (ga : BeatGrid) (ka : Key) (gb : BeatGrid) (kb : Key) :
    Except MixError Resolution :=
  match chooseTargetBpm (tempoOf ga) (tempoOf gb) with
  | .ok t => .ok ⟨t, keyShift ka kb⟩
  | .error e => .error e

/-! ### Beat grid builder (modelled from the spec §4.2; absent from src/) -/

/-- Modelled from the spec: `AudioFeatures` as in §3 of the design. -/
structure AudioFeatures where
  tempo_bpm : ℚ
  beat_times : List ℚ
  downbeat_indices : List ℕ
  key : Key
  confidence : ℚ
deriving DecidableEq

/-- The slopes `(t_j - t_i) / (j - i)` over all index pairs `i < j` of a
beat-time sequence, the sample set of the robust line fit. -/
def pairSlopes (ts : List ℚ) : List ℚ :=
  (List.range ts.length).flatMap fun i =>
    (List.range ts.length).filterMap fun j =>
      if i < j then some ((ts.getD j 0 - ts.getD i 0) / ((j : ℚ) - (i : ℚ))) else none

/-- The lower median of a list of rationals (0 for the empty list). -/
def medianOf (l : List ℚ) : ℚ :=
  (l.mergeSort (fun a b => decide (a ≤ b))).getD (l.length / 2) 0

/-- Modelled from the spec: the robustly fitted beats-per-second slope of
the linear model `time = origin + period * beat_index` — the Theil–Sen
estimator, the median of all pairwise slopes, robust to outlier beats. -/
def fittedPeriod (ts : List ℚ) : ℚ := medianOf (pairSlopes ts)

/-- Modelled from the spec: the robustly fitted intercept of the linear
model, the median of the per-beat residuals `t_i - period * i`. -/
def fittedIntercept (ts : List ℚ) (p : ℚ) : ℚ :=
  medianOf ((List.range ts.length).map fun i => ts.getD i 0 - p * (i : ℚ))

/-- The fitted intercept shifted by a whole number of periods so that the
grid origin falls inside the first detected beat interval. -/
def normalizedOrigin (ts : List ℚ) (p : ℚ) : ℚ :=
  let fit0 := fittedIntercept ts p
  fit0 + p * (⌈(ts.headD 0 - fit0) / p⌉ : ℤ)

/-- Modelled from the spec: `bar_length` inferred as the most frequent gap
between consecutive downbeat indices, defaulting to 4. -/
def inferBarLength (idxs : List ℕ) : ℕ :=
  let gaps := List.zipWith (fun a b => b - a) idxs idxs.tail
  ((gaps.argmax fun g => gaps.count g).getD 4)

/-- Modelled from the spec: the number of labeled beats the grid carries —
at least one per detected beat and enough extrapolated beats (using the
fitted period) to cover the full track duration. -/
def gridBeatCount (duration origin p : ℚ) (detected : ℕ) : ℕ :=
  max detected ((⌈(duration - origin) / p⌉).toNat + 1)

/-- Modelled from the spec: `build_grid(features) -> BeatGrid` (§4.2).
Fails with `InsufficientBeats` when fewer than `min_beats_for_grid` beats
were detected; otherwise fits origin and period robustly and emits
quantized labeled beats covering the full track duration. -/
def build_grid (duration : ℚ) (f : AudioFeatures) : Except MixError BeatGrid :=
  if f.beat_times.length < min_beats_for_grid then .error .InsufficientBeats
  else
    let p := fittedPeriod f.beat_times
    let o := normalizedOrigin f.beat_times p
    let barLen := inferBarLength f.downbeat_indices
    let n := gridBeatCount duration o p f.beat_times.length
    .ok ⟨o, p, barLen,
      (List.range n).map fun (i : ℕ) =>
        { time := o + p * (i : ℚ), bar_index := i / barLen, beat_in_bar := i % barLen }⟩

/-- Modelled from the spec: the caller-side result of grid building — a
full grid, or the fixed-tempo fallback carrying only the reported
`tempo_bpm` (no bar/downbeat structure), or a fatal failure. -/
inductive GridResult where
  | grid (g : BeatGrid)
  | fixedTempo (bpm : ℚ)
  | failed (e : MixError)
deriving DecidableEq

/-- Modelled from the spec: the caller of `build_grid` falls back to a
fixed-tempo assumption from `tempo_bpm` alone when grid building fails
with `InsufficientBeats`. -/
def buildGridOrFallback (duration : ℚ) (f : AudioFeatures) : GridResult :=
  match build_grid duration f with
  | .ok g => .grid g
  | .error .InsufficientBeats => .fixedTempo f.tempo_bpm
  | .error e => .failed e

/-! ### Transition planner (modelled from the spec §4.4; absent from src/) -/

/-- Modelled from the spec: a `Track` as the planner sees it — an
identifier and its duration in seconds. -/
structure Track where
  id : ℕ
  duration : ℚ
deriving DecidableEq

/-- Modelled from the spec: `TransitionPlan` as in §3 of the design, with
the non-fatal `TruncatedWindow` condition attached as a flag. -/
structure TransitionPlan where
  track_a_id : ℕ
  track_b_id : ℕ
  stretch_ratio_a : ℚ
  stretch_ratio_b : ℚ
  fade_start_a : ℚ
  fade_end_a : ℚ
  fade_start_b : ℚ
  fade_end_b : ℚ
  key_shift_semitones_b : ℤ
  alignment_beat_a : ℕ
  alignment_beat_b : ℕ
  truncated_window : Bool
deriving DecidableEq

/-- The requested crossfade window width in one track: `crossfade_bars`
whole bars of the track's grid. -/
def windowWidth (g : BeatGrid) : ℚ :=
  (crossfade_bars : ℚ) * (g.bar_length : ℚ) * g.period

/-- Half-width of the crossfade window around an alignment time `t`,
shrunk symmetrically so the window stays within `[0, dur]`. -/
def clampHalf (t dur w : ℚ) : ℚ :=
  max 0 (min (w / 2) (min t (dur - t)))

/-- Whether an indexed labeled beat is a downbeat lying inside the track,
an admissible alignment point. -/
def isDownbeatIn (dur : ℚ) (p : ℕ × LabeledBeat) : Bool :=
  p.2.beat_in_bar == 0 && decide (0 ≤ p.2.time) && decide (p.2.time ≤ dur)

/-- Modelled from the spec: the transition planner
`plan(track_a, track_b, grid_a, grid_b, resolution) -> TransitionPlan`
(§4.4).  Stretch ratios come straight from the resolver's target tempo and
must satisfy the 0.5–2.0 bound, a violation being an internal invariant
failure.  Track A aligns on its last in-track downbeat, track B on its
first; each crossfade window is centered there, clamped to the track
boundaries, with truncation reported by the `truncated_window` flag. -/
def plan (a b : Track) (ga gb : BeatGrid) (r : Resolution) :
    Except MixError TransitionPlan :=
  let ra := r.target_bpm / tempoOf ga
  let rb := r.target_bpm / tempoOf gb
  if inBound ra && inBound rb then
    match (ga.labeled_beats.enum.filter (isDownbeatIn a.duration)).getLast?,
          (gb.labeled_beats.enum.filter (isDownbeatIn b.duration)).head? with
    | some pa, some pb =>
      let ha := clampHalf pa.2.time a.duration (windowWidth ga)
      let hb := clampHalf pb.2.time b.duration (windowWidth gb)
      .ok ⟨a.id, b.id, ra, rb,
           pa.2.time - ha, pa.2.time + ha, pb.2.time - hb, pb.2.time + hb,
           r.key_shift_semitones_b, pa.1, pb.1,
           (decide (ha < windowWidth ga / 2) || decide (hb < windowWidth gb / 2))⟩
    | _, _ => .error .InsufficientBeats
  else .error .InternalInvariantViolation

/-! ### Mix session state (modelled from the spec §4.5; absent from src/) -/

/-- Modelled from the spec: the mutable part of a mix session relevant to
re-planning — the per-adjacent-pair plan table keyed by track ids. -/
structure MixSession where
  plans : ℕ × ℕ → Option (Except MixError TransitionPlan)

/-- Modelled from the spec: recomputing the plan of an adjacent pair
replaces that pair's entry with a freshly computed plan. -/
def recomputePlan (s : MixSession) (a b : Track) (ga gb : BeatGrid)
    (r : Resolution) : MixSession :=
  ⟨Function.update s.plans (a.id, b.id) (some (plan a b ga gb r))⟩

/-! ### Concrete example values used by theorems and witnesses -/

/-- A beat grid at exactly 128 BPM (period 60/128 = 15/32 seconds). -/
def gridA128 : BeatGrid := ⟨0, 15 / 32, 4, []⟩

/-- A beat grid at exactly 130 BPM (period 60/130 = 6/13 seconds). -/
def gridB130 : BeatGrid := ⟨0, 6 / 13, 4, []⟩

/-- The key of C major (pitch class 0, major mode). -/
def keyCmajor : Key := ⟨0, .major⟩

/-- Audio features reporting only three detected beats (< 8). -/
def fewBeatsFeatures : AudioFeatures := ⟨120, [0, 1 / 2, 1], [], keyCmajor, 1⟩

/-! ### Theorems -/

/-- Unfolding of the resolver into its three outcome branches. -/
lemma resolve_eq (ga : BeatGrid) (ka : Key) (gb : BeatGrid) (kb : Key) :
    resolve ga ka gb kb =
      (if inBound (tempoOf ga / tempoOf gb) then
        Except.ok ⟨tempoOf ga, keyShift ka kb⟩
      else if inBound ((max (tempoOf ga) (tempoOf gb) / 2) / tempoOf ga) &&
          inBound ((max (tempoOf ga) (tempoOf gb) / 2) / tempoOf gb) then
        Except.ok ⟨max (tempoOf ga) (tempoOf gb) / 2, keyShift ka kb⟩
      else Except.error MixError.IncompatibleTempo) := by
  unfold resolve chooseTargetBpm
  split_ifs <;> rfl

/-- A tempo whose anchored ratio is within bound is nonzero. -/
lemma tempo_ne_zero_of_inBound {ta tb : ℚ} (h : inBound (ta / tb) = true) :
    ta ≠ 0 := by
  intro h0
  rw [h0, zero_div] at h
  simp only [inBound, stretchBoundMin, stretchBoundMax, decide_eq_true_eq] at h
  norm_num at h

/-- The ratio 1 (no stretch) is within bound. -/
lemma inBound_one : inBound 1 = true := by
  simp only [inBound, stretchBoundMin, stretchBoundMax, decide_eq_true_eq]
  norm_num

/-- C8: for every Redux state and every TestPayload action, the testAction
reducer of testSlice produces a state whose test field equals
action.payload.test and nothing else; the slice's initial state has test
equal to the empty string. -/
theorem c8_testSlice_reducer :
    (∀ (s : TestState) (a : PayloadAction TestPayload),
      testAction s a = ⟨a.payload.test⟩) ∧ initialState = ⟨""⟩ :=
  ⟨fun _ _ => rfl, rfl⟩

/-- C9: the getTest API function ignores its TestQuery argument — any two
queries produce the identical HTTP request, namely GET /test. -/
theorem c9_getTest_ignores_query :
    (∀ q1 q2 : TestQuery, getTest q1 = getTest q2) ∧
    (∀ q : TestQuery, getTest q = ⟨"GET", "/test"⟩) :=
  ⟨fun _ _ => rfl, fun _ => rfl⟩

/-- C10: in the frontend route table, every defined path other than /mixer
(namely / and /app) maps to a replacing redirect to /mixer, /mixer renders
the Mixer component, and every listed route ultimately resolves to the
Mixer view. -/
theorem c10_routes_resolve_to_mixer :
    (∀ rt ∈ routes, rt.path ≠ "/mixer" → rt.element = .navigate true "/mixer") ∧
    (∀ rt ∈ routes, rt.path = "/mixer" → rt.element = .mixerView) ∧
    (∀ rt ∈ routes, resolvesToMixer rt = true) := by
  decide

/-- Witness for C10 at the route for the root path. -/
theorem c10_routes_resolve_to_mixer_witness :
    (⟨"/", .navigate true "/mixer"⟩ : Route) ∈ routes ∧
    (Route.mk "/" (.navigate true "/mixer")).path ≠ "/mixer" ∧
    (Route.mk "/" (.navigate true "/mixer")).element = .navigate true "/mixer" :=
  ⟨by decide, by decide,
    c10_routes_resolve_to_mixer.1 ⟨"/", .navigate true "/mixer"⟩ (by decide) (by decide)⟩

/-- C1: the resolver chooses the tempo of the playing track A as the target
tempo whenever the implied stretch ratio for B stays within bound; for
track A at 128 BPM and track B at 130 BPM it returns target_bpm = 128 with
a B stretch ratio of approximately 0.985. -/
theorem c1_resolver_anchors_on_A :
    (∀ (ga : BeatGrid) (ka : Key) (gb : BeatGrid) (kb : Key),
      inBound (tempoOf ga / tempoOf gb) = true →
      resolve ga ka gb kb = .ok ⟨tempoOf ga, keyShift ka kb⟩) ∧
    resolve gridA128 keyCmajor gridB130 keyCmajor = .ok ⟨128, 0⟩ ∧
    |128 / tempoOf gridB130 - 985 / 1000| < 1 / 1000 := by
  have hgen : ∀ (ga : BeatGrid) (ka : Key) (gb : BeatGrid) (kb : Key),
      inBound (tempoOf ga / tempoOf gb) = true →
      resolve ga ka gb kb = .ok ⟨tempoOf ga, keyShift ka kb⟩ := by
    intro ga ka gb kb h
    rw [resolve_eq, if_pos h]
  refine ⟨hgen, ?_, ?_⟩
  · have h1 : tempoOf gridA128 = 128 := by norm_num [tempoOf, gridA128]
    have h2 : tempoOf gridB130 = 130 := by norm_num [tempoOf, gridB130]
    have hks : keyShift keyCmajor keyCmajor = 0 := by decide
    have hb : inBound (tempoOf gridA128 / tempoOf gridB130) = true := by
      rw [h1, h2]
      simp only [inBound, stretchBoundMin, stretchBoundMax, decide_eq_true_eq]
      norm_num
    rw [hgen gridA128 keyCmajor gridB130 keyCmajor hb, h1, hks]
  · have h2 : tempoOf gridB130 = 130 := by norm_num [tempoOf, gridB130]
    rw [h2, abs_sub_lt_iff]
    norm_num

/-- Witness for C1 at the 128 BPM / 130 BPM grids. -/
theorem c1_resolver_anchors_on_A_witness :
    inBound (tempoOf gridA128 / tempoOf gridB130) = true ∧
    resolve gridA128 keyCmajor gridB130 keyCmajor =
      .ok ⟨tempoOf gridA128, keyShift keyCmajor keyCmajor⟩ := by
  have hb : inBound (tempoOf gridA128 / tempoOf gridB130) = true := by
    simp only [inBound, tempoOf, gridA128, gridB130, stretchBoundMin, stretchBoundMax,
      decide_eq_true_eq]
    norm_num
  exact ⟨hb, c1_resolver_anchors_on_A.1 gridA128 keyCmajor gridB130 keyCmajor hb⟩

/-- C2: both stretch ratios implied by the resolver's returned target
tempo lie within the bound, and when the resolver fails its error is
IncompatibleTempo (never a silently clamped ratio). -/
theorem c2_stretch_ratios_within_bound :
    ∀ (ga : BeatGrid) (ka : Key) (gb : BeatGrid) (kb : Key),
      (∀ res : Resolution, resolve ga ka gb kb = .ok res →
        inBound (res.target_bpm / tempoOf ga) = true ∧
        inBound (res.target_bpm / tempoOf gb) = true) ∧
      (∀ e : MixError, resolve ga ka gb kb = .error e →
        e = .IncompatibleTempo) := by
  intro ga ka gb kb
  by_cases h1 : inBound (tempoOf ga / tempoOf gb) = true
  · have hres : resolve ga ka gb kb = .ok ⟨tempoOf ga, keyShift ka kb⟩ := by
      rw [resolve_eq, if_pos h1]
    constructor
    · intro res hok
      rw [hres] at hok
      injection hok with hok
      subst hok
      refine ⟨?_, h1⟩
      have hta : tempoOf ga ≠ 0 := tempo_ne_zero_of_inBound h1
      simpa [div_self hta] using inBound_one
    · intro e herr
      rw [hres] at herr
      exact absurd herr (by simp)
  · by_cases h2 : (inBound ((max (tempoOf ga) (tempoOf gb) / 2) / tempoOf ga) &&
        inBound ((max (tempoOf ga) (tempoOf gb) / 2) / tempoOf gb)) = true
    · have hres : resolve ga ka gb kb =
          .ok ⟨max (tempoOf ga) (tempoOf gb) / 2, keyShift ka kb⟩ := by
        rw [resolve_eq, if_neg h1, if_pos h2]
      rw [Bool.and_eq_true] at h2
      constructor
      · intro res hok
        rw [hres] at hok
        injection hok with hok
        subst hok
        exact ⟨h2.1, h2.2⟩
      · intro e herr
        rw [hres] at herr
        exact absurd herr (by simp)
    · have hres : resolve ga ka gb kb = .error .IncompatibleTempo := by
        rw [resolve_eq, if_neg h1, if_neg h2]
      constructor
      · intro res hok
        rw [hres] at hok
        exact absurd hok (by simp)
      · intro e herr
        rw [hres] at herr
        injection herr with herr
        exact herr.symm

/-- Witness for C2 at the 128 BPM / 130 BPM grids. -/
theorem c2_stretch_ratios_within_bound_witness :
    resolve gridA128 keyCmajor gridB130 keyCmajor = .ok ⟨128, 0⟩ ∧
    inBound ((Resolution.mk 128 0).target_bpm / tempoOf gridA128) = true ∧
    inBound ((Resolution.mk 128 0).target_bpm / tempoOf gridB130) = true := by
  have hok : resolve gridA128 keyCmajor gridB130 keyCmajor = .ok ⟨128, 0⟩ :=
    c1_resolver_anchors_on_A.2.1
  have h := (c2_stretch_ratios_within_bound gridA128 keyCmajor gridB130 keyCmajor).1
    ⟨128, 0⟩ hok
  exact ⟨hok, h.1, h.2⟩

/-- C4: the transition planner is deterministic and free of hidden mutable
state, so recomputing the plan of a pair already planned is idempotent on
the session. -/
theorem c4_recompute_idempotent :
    ∀ (s : MixSession) (a b : Track) (ga gb : BeatGrid) (r : Resolution),
      recomputePlan (recomputePlan s a b ga gb r) a b ga gb r =
        recomputePlan s a b ga gb r := by
  intro s a b ga gb r
  unfold recomputePlan
  simp

/-- C5: build_grid fails with InsufficientBeats on fewer than 8 beats, and
the caller falls back to a fixed-tempo assumption carrying tempo_bpm alone. -/
theorem c5_insufficient_beats_fallback :
    ∀ (dur : ℚ) (f : AudioFeatures), f.beat_times.length < min_beats_for_grid →
      build_grid dur f = .error .InsufficientBeats ∧
      buildGridOrFallback dur f = .fixedTempo f.tempo_bpm := by
  intro dur f h
  have hb : build_grid dur f = .error .InsufficientBeats := by
    unfold build_grid
    rw [if_pos h]
  exact ⟨hb, by unfold buildGridOrFallback; rw [hb]⟩

/-- Witness for C5 at a three-beat feature set. -/
theorem c5_insufficient_beats_fallback_witness :
    fewBeatsFeatures.beat_times.length < min_beats_for_grid ∧
    (build_grid 10 fewBeatsFeatures = .error .InsufficientBeats ∧
      buildGridOrFallback 10 fewBeatsFeatures = .fixedTempo fewBeatsFeatures.tempo_bpm) :=
  ⟨by decide, c5_insufficient_beats_fallback 10 fewBeatsFeatures (by decide)⟩

/-- The canonical signed representative reduces back to its pitch-class
difference modulo 12. -/
lemma signedRep_intCast (d : ZMod 12) : ((signedRep d : ℤ) : ZMod 12) = d := by
  revert d
  decide

/-- The canonical signed representative is at most a tritone away. -/
lemma abs_signedRep_le_six (d : ZMod 12) : |signedRep d| ≤ 6 := by
  revert d
  decide

/-- The canonical signed representative has the smallest absolute value in
its congruence class modulo 12. -/
lemma abs_signedRep_le {s : ℤ} (d : ZMod 12) (h : (s : ZMod 12) = d) :
    |signedRep d| ≤ |s| := by
  have hdvd : ((12 : ℕ) : ℤ) ∣ s - signedRep d := by
    rw [← ZMod.intCast_zmod_eq_zero_iff_dvd]
    push_cast
    rw [signedRep_intCast, h, sub_self]
  rcases eq_or_ne s (signedRep d) with heq | hne
  · rw [heq]
  · have hpos : 0 < |s - signedRep d| := abs_pos.mpr (sub_ne_zero.mpr hne)
    have h12 : (12 : ℤ) ≤ |s - signedRep d| := by
      have hd : ((12 : ℕ) : ℤ) ∣ |s - signedRep d| := (dvd_abs _ _).mpr hdvd
      exact_mod_cast Int.le_of_dvd hpos hd
    have habs : |s - signedRep d| ≤ |s| + |signedRep d| := by
      calc |s - signedRep d| = |s + -(signedRep d)| := by rw [sub_eq_add_neg]
        _ ≤ |s| + |-(signedRep d)| := abs_add _ _
        _ = |s| + |signedRep d| := by rw [abs_neg]
    have h6 := abs_signedRep_le_six d
    linarith

/-- Any semitone shift making B compatible with A is, modulo 12, one of
the resolver's candidates, so the chosen shift has no larger absolute
value than that class's canonical representative. -/
lemma keyShift_min_aux : ∀ (ka kb : Key) (d : ZMod 12),
    isCompatible ka ⟨kb.pitch_class + d, kb.mode⟩ = true →
    |keyShift ka kb| ≤ |signedRep d| := by
  decide

/-- The resolver's key shift lands on a compatible key and stays within
half an octave. -/
lemma keyShift_compat_and_bounded : ∀ ka kb : Key,
    isCompatible ka (shiftKey kb (keyShift ka kb)) = true ∧
    |keyShift ka kb| ≤ 6 := by
  decide

/-- C3: the returned key_shift_semitones_b takes key_b to a harmonically
compatible key of key_a with the smallest possible absolute semitone
shift, and its absolute value never exceeds 6. -/
theorem c3_key_shift_minimal :
    ∀ ka kb : Key,
      isCompatible ka (shiftKey kb (keyShift ka kb)) = true ∧
      (∀ s : ℤ, isCompatible ka (shiftKey kb s) = true → |keyShift ka kb| ≤ |s|) ∧
      |keyShift ka kb| ≤ 6 := by
  intro ka kb
  refine ⟨(keyShift_compat_and_bounded ka kb).1, ?_, (keyShift_compat_and_bounded ka kb).2⟩
  intro s hs
  unfold shiftKey at hs
  exact le_trans (keyShift_min_aux ka kb (s : ZMod 12) hs)
    (abs_signedRep_le (s : ZMod 12) rfl)

/-- Witness for C3: shifting C major by a perfect fifth is compatible with
C major, so the chosen shift for (C, C) is no larger than 7 semitones. -/
theorem c3_key_shift_minimal_witness :
    isCompatible keyCmajor (shiftKey keyCmajor 7) = true ∧
    |keyShift keyCmajor keyCmajor| ≤ |(7 : ℤ)| :=
  ⟨by decide, (c3_key_shift_minimal keyCmajor keyCmajor).2.1 7 (by decide)⟩

/-- A list element named by `getLast?` is a member of the list. -/
lemma mem_of_getLast?_eq {α : Type} {l : List α} {a : α}
    (h : l.getLast? = some a) : a ∈ l := by
  obtain ⟨hne, heq⟩ := List.mem_getLast?_eq_getLast (show a ∈ l.getLast? by simp [h])
  exact heq ▸ List.getLast_mem hne

/-- A list element named by `head?` is a member of the list. -/
lemma mem_of_head?_eq {α : Type} {l : List α} {a : α}
    (h : l.head? = some a) : a ∈ l :=
  List.mem_of_mem_head? (by simp [h])

/-- The clamped half-window is nonnegative. -/
lemma clampHalf_nonneg (t dur w : ℚ) : 0 ≤ clampHalf t dur w :=
  le_max_left 0 _

/-- The clamped half-window never reaches left of the track start. -/
lemma clampHalf_le_left (t dur w : ℚ) (h0 : 0 ≤ t) (h1 : t ≤ dur) :
    clampHalf t dur w ≤ t := by
  unfold clampHalf
  exact max_le h0 (le_trans (min_le_right _ _) (min_le_left _ _))

/-- The clamped half-window never reaches right of the track end. -/
lemma clampHalf_le_right (t dur w : ℚ) (h0 : 0 ≤ t) (h1 : t ≤ dur) :
    clampHalf t dur w ≤ dur - t := by
  unfold clampHalf
  exact max_le (by linarith) (le_trans (min_le_right _ _) (min_le_right _ _))

/-- When the requested window overruns a track boundary the clamped
half-window is strictly smaller than requested. -/
lemma clampHalf_lt_of_overrun {t dur w : ℚ} (h0 : 0 ≤ t) (h1 : t ≤ dur)
    (hor : t - w / 2 < 0 ∨ dur < t + w / 2) : clampHalf t dur w < w / 2 := by
  rcases hor with hl | hr
  · have h := clampHalf_le_left t dur w h0 h1
    linarith
  · have h := clampHalf_le_right t dur w h0 h1
    linarith

/-- An admissible alignment point lies within the track. -/
lemma isDownbeatIn_bounds {dur : ℚ} {p : ℕ × LabeledBeat}
    (h : isDownbeatIn dur p = true) : 0 ≤ p.2.time ∧ p.2.time ≤ dur := by
  unfold isDownbeatIn at h
  rw [Bool.and_eq_true, Bool.and_eq_true] at h
  exact ⟨of_decide_eq_true h.1.2, of_decide_eq_true h.2⟩

/-- C6: every successful plan keeps fade offsets within each track's
boundaries, and whenever the requested crossfade window (centered on the
alignment beat) would run past a track's start or end, the plan carries
the TruncatedWindow flag. -/
theorem c6_fade_window_in_bounds :
    ∀ (a b : Track) (ga gb : BeatGrid) (r : Resolution) (p : TransitionPlan),
      plan a b ga gb r = .ok p →
      (0 ≤ p.fade_start_a ∧ p.fade_start_a ≤ p.fade_end_a ∧ p.fade_end_a ≤ a.duration) ∧
      (0 ≤ p.fade_start_b ∧ p.fade_start_b ≤ p.fade_end_b ∧ p.fade_end_b ≤ b.duration) ∧
      (((p.fade_start_a + p.fade_end_a) / 2 - windowWidth ga / 2 < 0 ∨
        a.duration < (p.fade_start_a + p.fade_end_a) / 2 + windowWidth ga / 2 ∨
        (p.fade_start_b + p.fade_end_b) / 2 - windowWidth gb / 2 < 0 ∨
        b.duration < (p.fade_start_b + p.fade_end_b) / 2 + windowWidth gb / 2) →
        p.truncated_window = true) := by
  intro a b ga gb r p hp
  unfold plan at hp
  by_cases hrb : (inBound (r.target_bpm / tempoOf ga) &&
      inBound (r.target_bpm / tempoOf gb)) = true
  · rw [if_pos hrb] at hp
    cases hA : (ga.labeled_beats.enum.filter (isDownbeatIn a.duration)).getLast? with
    | none =>
      rw [hA] at hp
      simp at hp
    | some pa =>
      cases hB : (gb.labeled_beats.enum.filter (isDownbeatIn b.duration)).head? with
      | none =>
        rw [hA, hB] at hp
        simp at hp
      | some pb =>
        rw [hA, hB] at hp
        injection hp with hp
        subst hp
        have hpa := isDownbeatIn_bounds (List.mem_filter.mp (mem_of_getLast?_eq hA)).2
        have hpb := isDownbeatIn_bounds (List.mem_filter.mp (mem_of_head?_eq hB)).2
        have hca : (pa.2.time - clampHalf pa.2.time a.duration (windowWidth ga) +
            (pa.2.time + clampHalf pa.2.time a.duration (windowWidth ga))) / 2 =
            pa.2.time := by ring
        have hcb : (pb.2.time - clampHalf pb.2.time b.duration (windowWidth gb) +
            (pb.2.time + clampHalf pb.2.time b.duration (windowWidth gb))) / 2 =
            pb.2.time := by ring
        refine ⟨⟨?_, ?_, ?_⟩, ⟨?_, ?_, ?_⟩, ?_⟩
        · have h := clampHalf_le_left pa.2.time a.duration (windowWidth ga) hpa.1 hpa.2
          simp only
          linarith
        · have h := clampHalf_nonneg pa.2.time a.duration (windowWidth ga)
          simp only
          linarith
        · have h := clampHalf_le_right pa.2.time a.duration (windowWidth ga) hpa.1 hpa.2
          simp only
          linarith
        · have h := clampHalf_le_left pb.2.time b.duration (windowWidth gb) hpb.1 hpb.2
          simp only
          linarith
        · have h := clampHalf_nonneg pb.2.time b.duration (windowWidth gb)
          simp only
          linarith
        · have h := clampHalf_le_right pb.2.time b.duration (windowWidth gb) hpb.1 hpb.2
          simp only
          linarith
        · intro hor
          simp only at hor ⊢
          rw [hca, hcb] at hor
          rw [Bool.or_eq_true, decide_eq_true_eq, decide_eq_true_eq]
          rcases hor with h | h | h | h
          · exact Or.inl (clampHalf_lt_of_overrun hpa.1 hpa.2 (Or.inl h))
          · exact Or.inl (clampHalf_lt_of_overrun hpa.1 hpa.2 (Or.inr h))
          · exact Or.inr (clampHalf_lt_of_overrun hpb.1 hpb.2 (Or.inl h))
          · exact Or.inr (clampHalf_lt_of_overrun hpb.1 hpb.2 (Or.inr h))
  · rw [if_neg hrb] at hp
    exact absurd hp (by simp)

/-- Outgoing example track, ten seconds long. -/
def trackAex : Track := ⟨0, 10⟩

/-- Incoming example track, ten seconds long. -/
def trackBex : Track := ⟨1, 10⟩

/-- Example grid for track A: 120 BPM, one downbeat at t = 4. -/
def gridAex : BeatGrid := ⟨0, 1 / 2, 4, [⟨4, 2, 0⟩]⟩

/-- Example grid for track B: 120 BPM, one downbeat at t = 1, too close to
the track start for a full four-bar window. -/
def gridBex : BeatGrid := ⟨0, 1 / 2, 4, [⟨1, 0, 0⟩]⟩

/-- Example resolver output: 120 BPM target, no key shift. -/
def resolutionEx : Resolution := ⟨120, 0⟩

/-- The plan the planner emits for the example inputs: full window on A,
window on B shrunk to one second each side, truncation flagged. -/
def planEx : TransitionPlan := ⟨0, 1, 1, 1, 0, 8, 0, 2, 0, 0, 0, true⟩

/-- The planner's full evaluation on the example inputs. -/
lemma plan_ex_eval :
    plan trackAex trackBex gridAex gridBex resolutionEx = .ok planEx := by
  unfold plan trackAex trackBex gridAex gridBex resolutionEx planEx tempoOf
    windowWidth clampHalf isDownbeatIn inBound stretchBoundMin stretchBoundMax
    crossfade_bars
  norm_num [List.enum, List.enumFrom, List.filter_cons, min_def, max_def]

/-- Witness for C6 at the example inputs: the emitted plan is in bounds
and carries the truncation flag. -/
theorem c6_fade_window_in_bounds_witness :
    plan trackAex trackBex gridAex gridBex resolutionEx = .ok planEx ∧
    (0 ≤ planEx.fade_start_a ∧ planEx.fade_start_a ≤ planEx.fade_end_a ∧
      planEx.fade_end_a ≤ trackAex.duration) ∧
    (0 ≤ planEx.fade_start_b ∧ planEx.fade_start_b ≤ planEx.fade_end_b ∧
      planEx.fade_end_b ≤ trackBex.duration) :=
  ⟨plan_ex_eval,
    (c6_fade_window_in_bounds trackAex trackBex gridAex gridBex resolutionEx planEx
      plan_ex_eval).1,
    (c6_fade_window_in_bounds trackAex trackBex gridAex gridBex resolutionEx planEx
      plan_ex_eval).2.1⟩

/-- Every member of `pairSlopes` is a pairwise slope of the sequence. -/
lemma mem_pairSlopes {ts : List ℚ} {x : ℚ} (hx : x ∈ pairSlopes ts) :
    ∃ i j, i < j ∧ j < ts.length ∧
      x = (ts.getD j 0 - ts.getD i 0) / ((j : ℚ) - (i : ℚ)) := by
  rcases List.mem_flatMap.mp hx with ⟨i, hi, hx2⟩
  rcases List.mem_filterMap.mp hx2 with ⟨j, hj, heq⟩
  by_cases hij : i < j
  · rw [if_pos hij] at heq
    exact ⟨i, j, hij, List.mem_range.mp hj, (Option.some.inj heq).symm⟩
  · rw [if_neg hij] at heq
    exact absurd heq (by simp)

/-- On a strictly increasing beat sequence every pairwise slope is
strictly positive. -/
lemma pairSlopes_pos {ts : List ℚ} (h : List.Pairwise (· < ·) ts) :
    ∀ x ∈ pairSlopes ts, 0 < x := by
  intro x hx
  obtain ⟨i, j, hij, hj, rfl⟩ := mem_pairSlopes hx
  have hi : i < ts.length := lt_trans hij hj
  have hlt : ts.getD i 0 < ts.getD j 0 := by
    rw [List.getD_eq_getElem _ _ hi, List.getD_eq_getElem _ _ hj]
    exact List.pairwise_iff_getElem.mp h i j hi hj hij
  have hij' : (i : ℚ) < (j : ℚ) := by exact_mod_cast hij
  exact div_pos (by linarith) (by linarith)

/-- With at least two beats there is at least one pairwise slope. -/
lemma pairSlopes_ne_nil {ts : List ℚ} (h : 2 ≤ ts.length) :
    pairSlopes ts ≠ [] := by
  have hmem : (ts.getD 1 0 - ts.getD 0 0) / (((1 : ℕ) : ℚ) - ((0 : ℕ) : ℚ)) ∈
      pairSlopes ts := by
    apply List.mem_flatMap.mpr
    refine ⟨0, List.mem_range.mpr (by omega), ?_⟩
    apply List.mem_filterMap.mpr
    refine ⟨1, List.mem_range.mpr (by omega), ?_⟩
    rw [if_pos (by norm_num)]
  exact List.ne_nil_of_mem hmem

/-- The median of a nonempty list is one of its members. -/
lemma medianOf_mem {l : List ℚ} (h : l ≠ []) : medianOf l ∈ l := by
  unfold medianOf
  have hperm := List.mergeSort_perm l (fun a b => decide (a ≤ b))
  have hidx : l.length / 2 < (l.mergeSort (fun a b => decide (a ≤ b))).length := by
    rw [hperm.length_eq]
    exact Nat.div_lt_self (List.length_pos.mpr h) (by norm_num)
  rw [List.getD_eq_getElem _ _ hidx]
  exact hperm.mem_iff.mp (List.getElem_mem hidx)

/-- The Theil–Sen period fitted to a strictly increasing beat sequence of
at least two beats is strictly positive. -/
lemma fittedPeriod_pos {ts : List ℚ} (h2 : 2 ≤ ts.length)
    (hmono : List.Pairwise (· < ·) ts) : 0 < fittedPeriod ts :=
  pairSlopes_pos hmono _ (medianOf_mem (pairSlopes_ne_nil h2))

/-- The normalized origin falls inside the first beat interval:
at or after the first detected beat and less than one period later. -/
lemma normalizedOrigin_bounds {ts : List ℚ} {p : ℚ} (hp : 0 < p) :
    ts.headD 0 ≤ normalizedOrigin ts p ∧
    normalizedOrigin ts p < ts.headD 0 + p := by
  simp only [normalizedOrigin]
  set f0 := fittedIntercept ts p with hf0
  set t0 := ts.headD 0 with ht0
  set k := ⌈(t0 - f0) / p⌉ with hk
  constructor
  · have h1 : (t0 - f0) / p ≤ (k : ℚ) := Int.le_ceil _
    rw [div_le_iff₀ hp] at h1
    have hc : (k : ℚ) * p = p * k := mul_comm _ _
    linarith
  · have h1 : (k : ℚ) < (t0 - f0) / p + 1 := Int.ceil_lt_add_one _
    have h4 : (k : ℚ) - 1 < (t0 - f0) / p := by linarith
    rw [lt_div_iff₀ hp] at h4
    have hexp : ((k : ℚ) - 1) * p = p * k - p := by ring
    rw [hexp] at h4
    linarith

/-- The grid's beat count suffices to reach the track duration when
stepping from the origin by the fitted period. -/
lemma gridBeatCount_covers {duration origin p : ℚ} (hp : 0 < p)
    (detected : ℕ) :
    duration ≤ origin +
      p * ((gridBeatCount duration origin p detected - 1 : ℕ) : ℚ) := by
  unfold gridBeatCount
  set m := (⌈(duration - origin) / p⌉).toNat with hm
  have hge : m ≤ max detected (m + 1) - 1 := by omega
  have hcast : (m : ℚ) ≤ ((max detected (m + 1) - 1 : ℕ) : ℚ) := by
    exact_mod_cast hge
  have hmono : p * (m : ℚ) ≤ p * ((max detected (m + 1) - 1 : ℕ) : ℚ) :=
    mul_le_mul_of_nonneg_left hcast hp.le
  have hkey : duration - origin ≤ p * (m : ℚ) := by
    by_cases hdo : duration - origin ≤ 0
    · have hnn : (0 : ℚ) ≤ p * (m : ℚ) := mul_nonneg hp.le (by positivity)
      linarith
    · push_neg at hdo
      have hc0 : (0 : ℤ) ≤ ⌈(duration - origin) / p⌉ := by
        apply Int.ceil_nonneg
        positivity
      have hmz : ((m : ℕ) : ℤ) = ⌈(duration - origin) / p⌉ := by
        rw [hm]
        exact Int.toNat_of_nonneg hc0
      have hle : (duration - origin) / p ≤ (m : ℚ) := by
        have h1 := Int.le_ceil ((duration - origin) / p)
        have h2 : ((⌈(duration - origin) / p⌉ : ℤ) : ℚ) = (m : ℚ) := by
          exact_mod_cast congrArg (fun z : ℤ => (z : ℚ)) hmz.symm
        rw [h2] at h1
        exact h1
      rw [div_le_iff₀ hp] at hle
      have hc : (m : ℚ) * p = p * m := mul_comm _ _
      linarith
  linarith

/-- C7: on at least 8 strictly increasing beat times, build_grid returns a
grid with strictly positive period, origin inside the first beat interval,
strictly increasing labeled beats, and labeled beats covering the full
track duration by extrapolation. -/
theorem c7_build_grid_invariant :
    ∀ (dur : ℚ) (f : AudioFeatures),
      min_beats_for_grid ≤ f.beat_times.length →
      List.Pairwise (· < ·) f.beat_times →
      ∃ g, build_grid dur f = .ok g ∧
        0 < g.period ∧
        (f.beat_times.headD 0 ≤ g.origin_time ∧
          g.origin_time < f.beat_times.headD 0 + g.period) ∧
        List.Pairwise (fun u v => u.time < v.time) g.labeled_beats ∧
        ∃ lb ∈ g.labeled_beats, dur ≤ lb.time := by
  intro dur f h8 hmono
  have hnotlt : ¬ f.beat_times.length < min_beats_for_grid := Nat.not_lt.mpr h8
  have h2 : 2 ≤ f.beat_times.length := by
    have : (2 : ℕ) ≤ min_beats_for_grid := by norm_num [min_beats_for_grid]
    omega
  have hp : 0 < fittedPeriod f.beat_times := fittedPeriod_pos h2 hmono
  refine ⟨⟨normalizedOrigin f.beat_times (fittedPeriod f.beat_times),
      fittedPeriod f.beat_times,
      inferBarLength f.downbeat_indices,
      (List.range (gridBeatCount dur
          (normalizedOrigin f.beat_times (fittedPeriod f.beat_times))
          (fittedPeriod f.beat_times) f.beat_times.length)).map
        fun (i : ℕ) =>
          { time := normalizedOrigin f.beat_times (fittedPeriod f.beat_times) +
              fittedPeriod f.beat_times * (i : ℚ),
            bar_index := i / inferBarLength f.downbeat_indices,
            beat_in_bar := i % inferBarLength f.downbeat_indices }⟩,
    ?_, hp, normalizedOrigin_bounds hp, ?_, ?_⟩
  · unfold build_grid
    rw [if_neg hnotlt]
  · rw [List.pairwise_map]
    apply List.Pairwise.imp ?_ (List.pairwise_lt_range _)
    intro a b hab
    have hab' : (a : ℚ) < (b : ℚ) := by exact_mod_cast hab
    simp only
    exact add_lt_add_left (mul_lt_mul_of_pos_left hab' hp) _
  · set n := gridBeatCount dur
      (normalizedOrigin f.beat_times (fittedPeriod f.beat_times))
      (fittedPeriod f.beat_times) f.beat_times.length with hn
    have hnpos : 0 < n := by
      have : f.beat_times.length ≤ n := Nat.le_max_left _ _
      omega
    refine ⟨_, List.mem_map.mpr ⟨n - 1, List.mem_range.mpr (by omega), rfl⟩, ?_⟩
    exact gridBeatCount_covers hp f.beat_times.length

/-- Audio features with eight strictly increasing beats at 120 BPM. -/
def eightBeatFeatures : AudioFeatures :=
  ⟨120, [0, 1 / 2, 1, 3 / 2, 2, 5 / 2, 3, 7 / 2], [0, 4], keyCmajor, 1⟩

/-- Witness for C7 at the eight-beat feature set over a 4-second track. -/
theorem c7_build_grid_invariant_witness :
    min_beats_for_grid ≤ eightBeatFeatures.beat_times.length ∧
    List.Pairwise (· < ·) eightBeatFeatures.beat_times ∧
    (∃ g, build_grid 4 eightBeatFeatures = .ok g ∧
      0 < g.period ∧
      (eightBeatFeatures.beat_times.headD 0 ≤ g.origin_time ∧
        g.origin_time < eightBeatFeatures.beat_times.headD 0 + g.period) ∧
      List.Pairwise (fun u v => u.time < v.time) g.labeled_beats ∧
      ∃ lb ∈ g.labeled_beats, (4 : ℚ) ≤ lb.time) :=
  ⟨by decide, by norm_num [eightBeatFeatures],
    c7_build_grid_invariant 4 eightBeatFeatures (by decide)
      (by norm_num [eightBeatFeatures])⟩

end Mixer
